import Mathlib

/-!
# Verification of the page-watcher pipeline (`src/script.py`)

This file gives a shallow embedding of the snapshot/compare/notify pipeline
of `src/script.py` and proves/refutes the specification claims about it.

Conventions:
* Python strings are Lean `String`s (lists of unicode scalar values).
* Machine-level hashing (`hashlib.sha256(...).hexdigest()`) is embedded as a
  full executable SHA-256 over `Nat` with explicit `% 2^32` arithmetic.
* Filesystem and network effects are made explicit: a run returns the final
  state-file content, the list of `save_state` calls, the list of archive
  writes, the list of attempted HTTP posts and the uncaught Python exception
  (if any).
-/

set_option autoImplicit false
set_option maxRecDepth 4096

namespace Watcher

/-! ## Python whitespace

`re.sub(r"\s+", " ", s)` with a `str` pattern and `str.strip()` both use the
CPython notion of unicode whitespace (`Py_UNICODE_ISSPACE`): bidirectional
classes WS/B/S and category Zs.  The exact code-point list: -/

def isPySpace (c : Char) : Bool :=
  let n := c.toNat
  (9 ≤ n && n ≤ 13) || (28 ≤ n && n ≤ 31) || n == 32 || n == 133 || n == 160 ||
  n == 0x1680 || (0x2000 ≤ n && n ≤ 0x200A) || n == 0x2028 || n == 0x2029 ||
  n == 0x202F || n == 0x205F || n == 0x3000

/-- The non-breaking-space character replaced at line 73 of the source
(`s.replace(" ", " ")`). -/
def nbspChar : Char := Char.ofNat 160

/-- Line 73: `s = s.replace(" ", " ")` (a one-character pattern, hence a
per-character map). -/
def replaceNbsp (l : List Char) : List Char :=
  l.map (fun c => if c = nbspChar then ' ' else c)

mutual
/-- Line 74, first half: `re.sub(r"\s+", " ", s)` — every maximal run of
whitespace is replaced by a single ASCII space.  `collapseWs` scans outside a
whitespace run. -/
def collapseWs : List Char → List Char
  | [] => []
  | c :: cs => if isPySpace c then ' ' :: collapseSkip cs else c :: collapseWs cs

/-- Continuation of `collapseWs` inside a whitespace run: the run's remaining
whitespace is dropped (the single replacement space was already emitted). -/
def collapseSkip : List Char → List Char
  | [] => []
  | c :: cs => if isPySpace c then collapseSkip cs else c :: collapseWs cs
end

/-- Line 74, second half: `.strip()` — drop leading and trailing Python
whitespace. -/
def pyStripChars (l : List Char) : List Char :=
  (((l.dropWhile isPySpace).reverse.dropWhile isPySpace)).reverse

/-- Lines 71–75 of the source:

```python
def normalize_text(s: str) -> str:
    s = s.replace(" ", " ")
    s = re.sub(r"\s+", " ", s).strip()
    return s
``` -/
def normalize_text (s : String) : String :=
  String.mk (pyStripChars (collapseWs (replaceNbsp s.data)))

/-- `str.strip()` on a whole string, as used by `get_pushover_users`. -/
def pyStrip (s : String) : String :=
  String.mk (pyStripChars s.data)

/-! ## SHA-256 (lines 77–78: `hashlib.sha256(s.encode("utf-8")).hexdigest()`)

A complete executable SHA-256 over `Nat`, with 32-bit words kept by explicit
`% 4294967296`. -/

/-- UTF-8 encoding of one unicode scalar value (`str.encode("utf-8")`). -/
def utf8EncodeChar (c : Char) : List Nat :=
  let n := c.toNat
  if n < 0x80 then [n]
  else if n < 0x800 then
    [0xC0 ||| (n >>> 6), 0x80 ||| (n &&& 0x3F)]
  else if n < 0x10000 then
    [0xE0 ||| (n >>> 12), 0x80 ||| ((n >>> 6) &&& 0x3F), 0x80 ||| (n &&& 0x3F)]
  else
    [0xF0 ||| (n >>> 18), 0x80 ||| ((n >>> 12) &&& 0x3F),
     0x80 ||| ((n >>> 6) &&& 0x3F), 0x80 ||| (n &&& 0x3F)]

def utf8Encode (l : List Char) : List Nat :=
  l.flatMap utf8EncodeChar

def w32 : Nat := 4294967296

/-- Right rotation of a 32-bit word. -/
def rotr32 (n x : Nat) : Nat :=
  ((x >>> n) ||| (x <<< (32 - n))) % w32

def shaCh (x y z : Nat) : Nat := (x &&& y) ^^^ ((x ^^^ 4294967295) &&& z)

def shaMaj (x y z : Nat) : Nat := (x &&& y) ^^^ (x &&& z) ^^^ (y &&& z)

def bigSigma0 (x : Nat) : Nat := rotr32 2 x ^^^ rotr32 13 x ^^^ rotr32 22 x

def bigSigma1 (x : Nat) : Nat := rotr32 6 x ^^^ rotr32 11 x ^^^ rotr32 25 x

def smallSigma0 (x : Nat) : Nat := rotr32 7 x ^^^ rotr32 18 x ^^^ (x >>> 3)

def smallSigma1 (x : Nat) : Nat := rotr32 17 x ^^^ rotr32 19 x ^^^ (x >>> 10)

/-- The 64 SHA-256 round constants (FIPS 180-4: the fractional parts of the
cube roots of the first 64 primes), written in decimal. -/
def sha256K : List Nat :=
  [1116352408, 1899447441, 3049323471, 3921009573, 961987163,
   1508970993, 2453635748, 2870763221, 3624381080, 310598401,
   607225278, 1426881987, 1925078388, 2162078206, 2614888103,
   3248222580, 3835390401, 4022224774, 264347078, 604807628,
   770255983, 1249150122, 1555081692, 1996064986, 2554220882,
   2821834349, 2952996808, 3210313671, 3336571891, 3584528711,
   113926993, 338241895, 666307205, 773529912, 1294757372,
   1396182291, 1695183700, 1986661051, 2177026350, 2456956037,
   2730485921, 2820302411, 3259730800, 3345764771, 3516065817,
   3600352804, 4094571909, 275423344, 430227734, 506948616,
   659060556, 883997877, 958139571, 1322822218, 1537002063,
   1747873779, 1955562222, 2024104815, 2227730452, 2361852424,
   2428436474, 2756734187, 3204031479, 3329325298]

/-- The eight SHA-256 initial hash words (FIPS 180-4: the fractional parts
of the square roots of the first 8 primes), written in decimal. -/
def sha256InitHash : List Nat :=
  [1779033703, 3144134277, 1013904242, 2773480762,
   1359893119, 2600822924, 528734635, 1541459225]

/-- `n` bytes of `v`, big-endian. -/
def beBytes (n v : Nat) : List Nat :=
  (List.range n).map (fun i => (v >>> (8 * (n - 1 - i))) % 256)

/-- SHA-256 message padding: append `0x80`, zeros up to 56 mod 64, then the
64-bit big-endian bit length. -/
def sha256Pad (msg : List Nat) : List Nat :=
  let L := msg.length
  let zeros := (119 - (L % 64)) % 64
  msg ++ [128] ++ List.replicate zeros 0 ++ beBytes 8 (8 * L)

/-- Big-endian 32-bit words from a byte list. -/
def toWords : List Nat → List Nat
  | b0 :: b1 :: b2 :: b3 :: rest =>
    (((b0 * 256 + b1) * 256 + b2) * 256 + b3) :: toWords rest
  | _ => []

/-- Split into 64-byte chunks.  The first argument is fuel (structural, so the
kernel can evaluate it); `chunks64` supplies the list length, which always
suffices since each step consumes at least one element. -/
def chunks64Go : Nat → List Nat → List (List Nat)
  | _, [] => []
  | 0, _ :: _ => []
  | fuel + 1, c :: rest => ((c :: rest).take 64) :: chunks64Go fuel ((c :: rest).drop 64)

def chunks64 (l : List Nat) : List (List Nat) :=
  chunks64Go l.length l

/-- One step of the message-schedule extension. -/
def scheduleStep (acc : List Nat) : List Nat :=
  let m := acc.length
  let x2 := acc.getD (m - 2) 0
  let x7 := acc.getD (m - 7) 0
  let x15 := acc.getD (m - 15) 0
  let x16 := acc.getD (m - 16) 0
  acc ++ [(smallSigma1 x2 + x7 + smallSigma0 x15 + x16) % w32]

def scheduleAll (acc : List Nat) : Nat → List Nat
  | 0 => acc
  | n + 1 => scheduleAll (scheduleStep acc) n

/-- The eight working variables of the compression function. -/
structure Hash8 where
  a : Nat
  b : Nat
  c : Nat
  d : Nat
  e : Nat
  f : Nat
  g : Nat
  h : Nat
deriving DecidableEq

/-- One SHA-256 compression round. -/
def shaRound (st : Hash8) (kw : Nat × Nat) : Hash8 :=
  let t1 := (st.h + bigSigma1 st.e + shaCh st.e st.f st.g + kw.1 + kw.2) % w32
  let t2 := (bigSigma0 st.a + shaMaj st.a st.b st.c) % w32
  ⟨(t1 + t2) % w32, st.a, st.b, st.c, (st.d + t1) % w32, st.e, st.f, st.g⟩

/-- Compress one 64-byte chunk into the running hash (eight 32-bit words). -/
def compressChunk (hs : List Nat) (chunk : List Nat) : List Nat :=
  let ws := scheduleAll (toWords chunk) 48
  let st0 : Hash8 :=
    ⟨hs.getD 0 0, hs.getD 1 0, hs.getD 2 0, hs.getD 3 0,
     hs.getD 4 0, hs.getD 5 0, hs.getD 6 0, hs.getD 7 0⟩
  let st := (sha256K.zip ws).foldl shaRound st0
  [(hs.getD 0 0 + st.a) % w32, (hs.getD 1 0 + st.b) % w32,
   (hs.getD 2 0 + st.c) % w32, (hs.getD 3 0 + st.d) % w32,
   (hs.getD 4 0 + st.e) % w32, (hs.getD 5 0 + st.f) % w32,
   (hs.getD 6 0 + st.g) % w32, (hs.getD 7 0 + st.h) % w32]

def sha256Bytes (msg : List Nat) : List Nat :=
  (chunks64 (sha256Pad msg)).foldl compressChunk sha256InitHash

def hexDigit (n : Nat) : Char :=
  Char.ofNat (if n < 10 then 48 + n else 87 + n)

/-- Lowercase hex of a 32-bit word, 8 digits. -/
def toHex8 (v : Nat) : List Char :=
  (List.range 8).map (fun i => hexDigit ((v >>> (4 * (7 - i))) &&& 15))

/-- Lines 77–78 of the source:

```python
def sha256(s: str) -> str:
    return hashlib.sha256(s.encode("utf-8")).hexdigest()
``` -/
def sha256 (s : String) : String :=
  String.mk ((sha256Bytes (utf8Encode s.data)).flatMap toHex8)

/-! ## Structure of normalized text

A normalized string has: only ASCII spaces as whitespace, no two adjacent
whitespace characters, and no leading or trailing whitespace.  These three
facts make `normalize_text` idempotent (claim C9). -/

/-- Adjacent characters are not both whitespace. -/
def SepWs (a b : Char) : Prop := ¬(isPySpace a = true ∧ isPySpace b = true)

/-- No two adjacent whitespace characters anywhere in the list. -/
def NoAdjWs (l : List Char) : Prop := l.Chain' SepWs

/-- The head, if any, is not whitespace. -/
def HeadNotWs : List Char → Prop
  | [] => True
  | c :: _ => isPySpace c = false

/-! ## The Differ (lines 88–96)

```python
def write_diff(old_text: str, new_text: str) -> str:
    diff = difflib.unified_diff(
        old_text.splitlines(), new_text.splitlines(),
        fromfile="before", tofile="after", lineterm="")
    return "\n".join(diff)
```

`difflib.unified_diff` is embedded below, following CPython's `difflib.py`
with `SequenceMatcher(None, a, b)` (no junk predicate, so the `bjunk` set is
empty; the autojunk "popular element" rule applies only when `len(b) >= 200`).
Loops become fuel-based structural recursion so the kernel can evaluate them;
each fuel argument is an upper bound on the number of iterations the
corresponding CPython loop performs. -/

/-- `str.splitlines` boundary characters. -/
def isLineBreakChar (c : Char) : Bool :=
  let n := c.toNat
  n == 10 || n == 11 || n == 12 || n == 13 || n == 28 || n == 29 || n == 30 ||
  n == 133 || n == 0x2028 || n == 0x2029

/-- Worker for `str.splitlines`: `acc` is the current line, reversed.  A
`"\r\n"` pair counts as a single boundary; a boundary at the very end of the
string produces no trailing empty line. -/
def splitlinesGo : List Char → List Char → List (List Char)
  | acc, [] => [acc.reverse]
  | acc, c :: rest =>
    if c = Char.ofNat 13 then
      match rest with
      | nl :: rest2 =>
        if nl = Char.ofNat 10 then
          acc.reverse :: (if rest2.isEmpty then [] else splitlinesGo [] rest2)
        else
          acc.reverse :: splitlinesGo [] (nl :: rest2)
      | [] => [acc.reverse]
    else if isLineBreakChar c then
      acc.reverse :: (if rest.isEmpty then [] else splitlinesGo [] rest)
    else splitlinesGo (c :: acc) rest

/-- `str.splitlines()`: empty string gives `[]`. -/
def pySplitlines (s : String) : List String :=
  match s.data with
  | [] => []
  | c :: rest => (splitlinesGo [] (c :: rest)).map String.mk

/-- Occurrence indices of `x` in `b` (`SequenceMatcher.__chain_b`'s `b2j`
before purging), in increasing order. -/
def b2jIndices (b : List String) (x : String) : List Nat :=
  (b.enum.filter (fun p => p.2 == x)).map (fun p => p.1)

/-- The autojunk rule: with `len(b) >= 200`, elements occurring in more than
one percent of `b` are "popular" and dropped from `b2j`. -/
def bPopular (b : List String) (x : String) : Bool :=
  decide (200 ≤ b.length) &&
    decide (b.length / 100 + 1 < (b2jIndices b x).length)

/-- `b2j.get(x, [])` after the autojunk purge (`isjunk is None`, so no junk
purge happens). -/
def b2jGet (b : List String) (x : String) : List Nat :=
  if bPopular b x then [] else b2jIndices b x

/-- Inner loop of `find_longest_match` for one row `i`: `j2len` is the
previous row's dictionary (as a function, default 0), `js` the in-range
occurrence indices of `a[i]` in `b`, ascending.  Returns the new row
dictionary and the updated best match.  `if k > bestsize` is strict, so ties
keep the earliest `(i, j)`, as in CPython. -/
def flmRow (j2len : Nat → Nat) (i : Nat) (js : List Nat)
    (best : Nat × Nat × Nat) : (Nat → Nat) × (Nat × Nat × Nat) :=
  js.foldl
    (fun acc j =>
      let k := (if j = 0 then 0 else j2len (j - 1)) + 1
      let newj2len := fun j2 => if j2 = j then k else acc.1 j2
      let best2 :=
        if acc.2.2.2 < k then (i + 1 - k, j + 1 - k, k) else acc.2
      (newj2len, best2))
    ((fun _ => 0), best)

/-- The dynamic-programming part of `find_longest_match` (before the
extension loops): longest matching block of `a[alo:ahi]` and `b[blo:bhi]`. -/
def flmDP (a b : List String) (alo ahi blo bhi : Nat) : Nat × Nat × Nat :=
  ((List.range' alo (ahi - alo)).foldl
    (fun (acc : (Nat → Nat) × (Nat × Nat × Nat)) i =>
      let js := (b2jGet b (a.getD i "")).filter
        (fun j => decide (blo ≤ j) && decide (j < bhi))
      flmRow acc.1 i js acc.2)
    ((fun _ => 0), (alo, blo, 0))).2

/-- First extension loop of `find_longest_match`: grow the best block
backwards over equal elements.  (The junk-extension loops of CPython are
identities here since the junk set is empty.) -/
def extendBack (a b : List String) (alo blo : Nat) :
    Nat → Nat × Nat × Nat → Nat × Nat × Nat
  | 0, best => best
  | fuel + 1, (besti, bestj, bestsize) =>
    if decide (alo < besti) && decide (blo < bestj) &&
        (a.getD (besti - 1) "" == b.getD (bestj - 1) "") then
      extendBack a b alo blo fuel (besti - 1, bestj - 1, bestsize + 1)
    else (besti, bestj, bestsize)

/-- Second extension loop of `find_longest_match`: grow forwards. -/
def extendFwd (a b : List String) (ahi bhi : Nat) :
    Nat → Nat × Nat × Nat → Nat × Nat × Nat
  | 0, best => best
  | fuel + 1, (besti, bestj, bestsize) =>
    if decide (besti + bestsize < ahi) && decide (bestj + bestsize < bhi) &&
        (a.getD (besti + bestsize) "" == b.getD (bestj + bestsize) "") then
      extendFwd a b ahi bhi fuel (besti, bestj, bestsize + 1)
    else (besti, bestj, bestsize)

/-- `SequenceMatcher.find_longest_match(alo, ahi, blo, bhi)`. -/
def find_longest_match (a b : List String) (alo ahi blo bhi : Nat) :
    Nat × Nat × Nat :=
  let best := flmDP a b alo ahi blo bhi
  let best := extendBack a b alo blo best.1 best
  extendFwd a b ahi bhi ahi best

/-- The recursive block collection of `get_matching_blocks` (CPython uses an
explicit queue; popping is a traversal of the same recursion tree, and the
result list is sorted afterwards, which yields exactly this in-order list). -/
def matchingBlocksAux (a b : List String) :
    Nat → Nat → Nat → Nat → Nat → List (Nat × Nat × Nat)
  | 0, _, _, _, _ => []
  | fuel + 1, alo, ahi, blo, bhi =>
    let m := find_longest_match a b alo ahi blo bhi
    if m.2.2 = 0 then []
    else
      (if decide (alo < m.1) && decide (blo < m.2.1) then
        matchingBlocksAux a b fuel alo m.1 blo m.2.1
      else []) ++
      m ::
      (if decide (m.1 + m.2.2 < ahi) && decide (m.2.1 + m.2.2 < bhi) then
        matchingBlocksAux a b fuel (m.1 + m.2.2) ahi (m.2.1 + m.2.2) bhi
      else [])

/-- Final pass of `get_matching_blocks`: merge adjacent blocks.  The first
argument is the running block `(i1, j1, k1)`, initially `(0, 0, 0)`. -/
def mergeAdjacent : Nat × Nat × Nat → List (Nat × Nat × Nat) → List (Nat × Nat × Nat)
  | (i1, j1, k1), [] => if k1 = 0 then [] else [(i1, j1, k1)]
  | (i1, j1, k1), (i2, j2, k2) :: rest =>
    if i1 + k1 = i2 ∧ j1 + k1 = j2 then mergeAdjacent (i1, j1, k1 + k2) rest
    else (if k1 = 0 then [] else [(i1, j1, k1)]) ++ mergeAdjacent (i2, j2, k2) rest

/-- `SequenceMatcher.get_matching_blocks()`, with the terminating sentinel
`(len(a), len(b), 0)`. -/
def get_matching_blocks (a b : List String) : List (Nat × Nat × Nat) :=
  mergeAdjacent (0, 0, 0)
    (matchingBlocksAux a b (a.length + b.length + 1) 0 a.length 0 b.length) ++
  [(a.length, b.length, 0)]

inductive OpTag where
  | replace
  | delete
  | insert
  | equal
deriving DecidableEq

structure Opcode where
  tag : OpTag
  a1 : Nat
  a2 : Nat
  b1 : Nat
  b2 : Nat
deriving DecidableEq

/-- Loop body of `get_opcodes`: `i`, `j` track the end of the previous
block. -/
def opcodesGo : Nat → Nat → List (Nat × Nat × Nat) → List Opcode
  | _, _, [] => []
  | i, j, (ai, bj, size) :: rest =>
    (if i < ai ∧ j < bj then [⟨.replace, i, ai, j, bj⟩]
     else if i < ai then [⟨.delete, i, ai, j, bj⟩]
     else if j < bj then [⟨.insert, i, ai, j, bj⟩]
     else []) ++
    (if size = 0 then [] else [⟨.equal, ai, ai + size, bj, bj + size⟩]) ++
    opcodesGo (ai + size) (bj + size) rest

/-- `SequenceMatcher.get_opcodes()`. -/
def get_opcodes (a b : List String) : List Opcode :=
  opcodesGo 0 0 (get_matching_blocks a b)

/-- Grouping loop of `get_grouped_opcodes`: split at equal runs longer than
`2n`, keeping `n` lines of context on each side. -/
def groupLoop (n : Nat) : List Opcode → List Opcode → List (List Opcode)
  | group, [] =>
    match group with
    | [] => []
    | [⟨.equal, _, _, _, _⟩] => []
    | g :: gs => [g :: gs]
  | group, op :: rest =>
    if op.tag = .equal ∧ n + n < op.a2 - op.a1 then
      (group ++ [⟨op.tag, op.a1, min op.a2 (op.a1 + n), op.b1, min op.b2 (op.b1 + n)⟩]) ::
      groupLoop n [⟨op.tag, max op.a1 (op.a2 - n), op.a2, max op.b1 (op.b2 - n), op.b2⟩] rest
    else groupLoop n (group ++ [op]) rest

/-- `SequenceMatcher.get_grouped_opcodes(n)`. -/
def get_grouped_opcodes (a b : List String) (n : Nat) : List (List Opcode) :=
  let codes0 := get_opcodes a b
  let codes1 := if codes0 = [] then [⟨.equal, 0, 1, 0, 1⟩] else codes0
  let codes2 :=
    match codes1 with
    | ⟨OpTag.equal, i1, i2, j1, j2⟩ :: rest =>
      Opcode.mk OpTag.equal (max i1 (i2 - n)) i2 (max j1 (j2 - n)) j2 :: rest
    | l => l
  let codes3 :=
    match codes2.reverse with
    | ⟨OpTag.equal, i1, i2, j1, j2⟩ :: restRev =>
      (Opcode.mk OpTag.equal i1 (min i2 (i1 + n)) j1 (min j2 (j1 + n)) :: restRev).reverse
    | _ => codes2
  groupLoop n [] codes3

/-- `difflib._format_range_unified`. -/
def formatRangeUnified (start stop : Nat) : String :=
  let beginning := start + 1
  let length := stop - start
  if length = 1 then toString beginning
  else toString (if length = 0 then beginning - 1 else beginning) ++ "," ++
    toString length

/-- Python list slicing `l[i:j]` for in-range indices. -/
def pySlice (l : List String) (i j : Nat) : List String :=
  (l.drop i).take (j - i)

/-- The per-group output of `unified_diff`: the `@@` header followed by
context/removed/added lines. -/
def unifiedGroupLines (a b : List String) (lineterm : String)
    (group : List Opcode) : List String :=
  match group with
  | [] => []
  | first :: rest =>
    let last := (first :: rest).getLast (by simp)
    ("@@ -" ++ formatRangeUnified first.a1 last.a2 ++ " +" ++
      formatRangeUnified first.b1 last.b2 ++ " @@" ++ lineterm) ::
    (first :: rest).flatMap (fun op =>
      match op.tag with
      | .equal => (pySlice a op.a1 op.a2).map (fun line => " " ++ line)
      | .replace =>
        (pySlice a op.a1 op.a2).map (fun line => "-" ++ line) ++
        (pySlice b op.b1 op.b2).map (fun line => "+" ++ line)
      | .delete => (pySlice a op.a1 op.a2).map (fun line => "-" ++ line)
      | .insert => (pySlice b op.b1 op.b2).map (fun line => "+" ++ line))

/-- `difflib.unified_diff(a, b, fromfile, tofile, lineterm=...)` with `n = 3`
and empty file dates, as the source calls it: the two `---`/`+++` header
lines are emitted once, before the first group. -/
def unified_diff (a b : List String) (fromfile tofile lineterm : String) :
    List String :=
  match get_grouped_opcodes a b 3 with
  | [] => []
  | g :: gs =>
    ("--- " ++ fromfile ++ lineterm) :: ("+++ " ++ tofile ++ lineterm) ::
    (g :: gs).flatMap (unifiedGroupLines a b lineterm)

/-- Lines 88–96 of the source (`write_diff`). -/
def write_diff (old_text new_text : String) : String :=
  String.intercalate "\n"
    (unified_diff (pySplitlines old_text) (pySplitlines new_text)
      "before" "after" "")

/-! ## Environment and the Notifier (lines 22–68)

The process environment (after `load_dotenv()`) is a finite map from
variable names to values. -/

def Env : Type := List (String × String)

/-- `os.getenv` / `os.environ.get`. -/
def getenv (env : Env) (k : String) : Option String :=
  (env.find? (fun p => p.1 == k)).map (fun p => p.2)

/-- Python `raw.split(",")`: split at every comma, keeping empty pieces. -/
def splitCommaChars : List Char → List (List Char)
  | [] => [[]]
  | c :: cs =>
    if c = ',' then [] :: splitCommaChars cs
    else
      match splitCommaChars cs with
      | [] => [[c]]
      | h :: t => (c :: h) :: t

def pySplitComma (s : String) : List String :=
  (splitCommaChars s.data).map String.mk

/-- Lines 22–30 of the source (`get_pushover_users`): a comma-separated
`PUSHOVER_USER_KEYS` is preferred; a single `PUSHOVER_USER_KEY` is the
backwards-compatible fallback. -/
def get_pushover_users (env : Env) : List String :=
  let raw := pyStrip ((getenv env "PUSHOVER_USER_KEYS").getD "")
  if raw ≠ "" then
    ((pySplitComma raw).map pyStrip).filter (fun u => u ≠ "")
  else
    let single := pyStrip ((getenv env "PUSHOVER_USER_KEY").getD "")
    if single ≠ "" then [single] else []

/-- A Pushover HTTP POST body (line 50's `payload`). -/
structure Payload where
  token : String
  user : String
  message : String
  title : String
deriving DecidableEq

/-- Outcome of one `requests.post` call: an HTTP response or a transport
exception (`requests.RequestException`). -/
inductive PostOutcome where
  | response (status : Nat) (body : String)
  | exn (msg : String)
deriving DecidableEq

/-- Uncaught Python exceptions relevant to this module. -/
inductive PyErr where
  | nameError (name : String)
  | runtimeError (msg : String)
  | keyError (key : String)
deriving DecidableEq

/-- Every name bound at the top level of `src/script.py`: the imports of
lines 1–12 and the assignments/defs of lines 16–98.  Note that neither
`PUSHOVER_MAX_CHARS` (used at line 43) nor `TZ` (used at line 152) is ever
bound, and neither is a Python builtin, so evaluating either name raises
`NameError`. -/
def moduleTopLevelNames : List String :=
  ["os", "json", "re", "requests", "hashlib", "difflib", "datetime", "time",
   "ZoneInfo", "Path", "load_dotenv", "sync_playwright", "PWTimeoutError",
   "STATE_DIR", "STATE_FILE", "SNAPSHOT_DIR",
   "get_pushover_users", "send_pushover", "normalize_text", "sha256",
   "load_last", "save_state", "write_diff", "main"]

def nameDefined (n : String) : Bool :=
  moduleTopLevelNames.contains n

instance {ε : Type} {α : Type} [DecidableEq ε] [DecidableEq α] :
    DecidableEq (Except ε α)
  | .error e1, .error e2 =>
    if h : e1 = e2 then isTrue (by rw [h])
    else isFalse (by intro he; cases he; exact h rfl)
  | .error _, .ok _ => isFalse (by intro h; cases h)
  | .ok _, .error _ => isFalse (by intro h; cases h)
  | .ok a1, .ok a2 =>
    if h : a1 = a2 then isTrue (by rw [h])
    else isFalse (by intro he; cases he; exact h rfl)

/-- Result of a `send_pushover` call: the HTTP posts attempted (in order)
and either the collected response bodies or the raised exception. -/
structure SendResult where
  posts : List Payload
  outcome : Except PyErr (List String)
deriving DecidableEq

/-- Lines 33–68 of the source (`send_pushover`).  After the two
configuration checks succeed, line 43 evaluates
`len(message) > PUSHOVER_MAX_CHARS`; the name `PUSHOVER_MAX_CHARS` is bound
nowhere in the module (see `moduleTopLevelNames`), so CPython raises
`NameError` there, before any truncation and before any HTTP request.
Lines 44–68 (truncation, the per-user POST loop, and the per-recipient
error aggregation) are unreachable.  The `post` parameter models
`requests.post`. -/
def send_pushover (env : Env) (post : Payload → PostOutcome)
    (message title : String) : SendResult :=
  let token := pyStrip ((getenv env "PUSHOVER_APP_TOKEN").getD "")
  let users := get_pushover_users env
  if token = "" then
    ⟨[], .error (.runtimeError "Missing PUSHOVER_APP_TOKEN in environment.")⟩
  else if users = [] then
    ⟨[], .error (.runtimeError
      "Missing PUSHOVER_USER_KEYS (comma-separated) or PUSHOVER_USER_KEY in environment.")⟩
  else
    ⟨[], .error (.nameError "PUSHOVER_MAX_CHARS")⟩

/-! ## The pipeline (`main`, lines 98–188) -/

def STATE_DIR : String := "state"

def STATE_FILE : String := "state/last_snapshot.json"

def SNAPSHOT_DIR : String := "state/snapshots"

def snapshotTxtPath (stamp : String) : String :=
  SNAPSHOT_DIR ++ "/" ++ stamp ++ ".txt"

def diffTxtPath (stamp : String) : String :=
  SNAPSHOT_DIR ++ "/" ++ stamp ++ ".diff.txt"

/-- The single record of the Fingerprint Store
(`state/last_snapshot.json`). -/
structure SnapshotRecord where
  hash : String
  text : String
  timestamp : String
deriving DecidableEq

/-- One file written under the archive directory. -/
structure FileWrite where
  path : String
  content : String
deriving DecidableEq

/-- Outcome of the content extraction (lines 148–150): either
`page.locator(content_sel).inner_text()` succeeded, or
`page.wait_for_selector` timed out. -/
inductive FetchResult where
  | found (raw : String)
  | missingSelector
deriving DecidableEq

/-- Observable outcome of one `main()` invocation:
* `finalStore` — content of the Fingerprint Store file when the process
  exits (equal to the prior record when no `save_state` ran);
* `savedRecords` — the arguments of the `save_state` calls, in order;
* `archiveWrites` — text files written under `state/snapshots/`, in order;
* `pushAttempts` — HTTP posts attempted by the Notifier;
* `printed` — `print` output, in order;
* `error` — the uncaught exception terminating the run, if any. -/
structure RunResult where
  finalStore : Option SnapshotRecord
  savedRecords : List SnapshotRecord
  archiveWrites : List FileWrite
  pushAttempts : List Payload
  printed : List String
  error : Option PyErr
deriving DecidableEq

/-- The environment keys read with `os.environ[...]` at lines 105–112, in
evaluation order; a missing one raises `KeyError` (`CONTENT_SELECTOR` at
line 113 uses `.get` with default `"body"` and cannot fail). -/
def requiredEnvKeys : List String :=
  ["LOGIN_URL", "TARGET_URL", "USERNAME", "PASSWORD",
   "USERNAME_SELECTOR", "PASSWORD_SELECTOR", "SUBMIT_SELECTOR"]

/-- The first required key missing from the environment, if any. -/
def missingEnvKey (env : Env) : Option String :=
  requiredEnvKeys.find? (fun k => (getenv env k).isNone)

/-- `main()` (lines 98–188) as a function of its external inputs:

* `env` — process environment;
* `post` — the HTTP transport (`requests.post`), unused because no send
  ever reaches the network (see `send_pushover`);
* `timeOfDaySec` — the America/Chicago wall-clock time of day in seconds,
  for the quiet-hours gate of lines 99–103 (`time(0,0) <= now < time(7,0)`
  is `timeOfDaySec < 25200`);
* `prior` — the parsed Fingerprint Store record (`load_last`), `none` when
  the state file does not exist;
* `fetch` — outcome of the content extraction;
* `nowStamp` — `datetime.now().strftime("%Y-%m-%d_%H-%M-%S")` of line 165.

For `fetch = missingSelector`, line 152 (`stamp = datetime.now(TZ)...`)
evaluates the unbound name `TZ` inside the `except PWTimeoutError` handler;
the resulting `NameError` is not caught, so the run dies before the debug
artifacts of lines 155–156 are written and before any sentinel text is
produced. -/
def runMain (env : Env) (post : Payload → PostOutcome) (timeOfDaySec : Nat)
    (prior : Option SnapshotRecord) (fetch : FetchResult)
    (nowStamp : String) : RunResult :=
  if timeOfDaySec < 25200 then
    { finalStore := prior, savedRecords := [], archiveWrites := [],
      pushAttempts := [],
      printed := ["Skipping due to quiet hours (12:00 AM–7:00 AM CT)."],
      error := none }
  else
    match missingEnvKey env with
    | some k =>
      { finalStore := prior, savedRecords := [], archiveWrites := [],
        pushAttempts := [], printed := [], error := some (.keyError k) }
    | none =>
      match fetch with
      | .missingSelector =>
        { finalStore := prior, savedRecords := [], archiveWrites := [],
          pushAttempts := [], printed := [], error := some (.nameError "TZ") }
      | .found raw =>
        let new_text := normalize_text raw
        let new_hash := sha256 new_text
        match prior with
        | none =>
          let newRecord : SnapshotRecord := ⟨new_hash, new_text, nowStamp⟩
          { finalStore := some newRecord, savedRecords := [newRecord],
            archiveWrites := [⟨snapshotTxtPath nowStamp, new_text⟩],
            pushAttempts := [],
            printed := ["No previous snapshot found. Saving initial snapshot."],
            error := none }
        | some lastRec =>
          if new_hash == lastRec.hash then
            let s := send_pushover env post
              "Rich, there aren\x27t any games rn. Stop fucking checking" "Watcher"
            { finalStore := some lastRec, savedRecords := [],
              archiveWrites := [], pushAttempts := s.posts,
              printed := ["No change detected."],
              error := match s.outcome with
                | .error e => some e
                | .ok _ => none }
          else
            let diff_text := write_diff lastRec.text new_text
            let newRecord : SnapshotRecord := ⟨new_hash, new_text, nowStamp⟩
            let s := send_pushover env post ("CHANGE DETECTED: " ++ new_text)
              "Watcher"
            { finalStore := some newRecord, savedRecords := [newRecord],
              archiveWrites :=
                [⟨snapshotTxtPath nowStamp, new_text⟩,
                 ⟨diffTxtPath nowStamp, diff_text⟩],
              pushAttempts := s.posts,
              printed :=
                ["CHANGE DETECTED ✅",
                 "Saved snapshot: " ++ snapshotTxtPath nowStamp,
                 "Saved diff:     " ++ diffTxtPath nowStamp],
              error := match s.outcome with
                | .error e => some e
                | .ok _ => none }

/-! ## Concrete fixtures

A fully populated environment and transport, and concrete store records, used
to instantiate the claim theorems. -/

/-- An environment with every required key and a three-recipient Pushover
configuration. -/
def env0 : Env :=
  [("LOGIN_URL", "https://example.com/login"),
   ("TARGET_URL", "https://example.com/page"),
   ("USERNAME", "user"),
   ("PASSWORD", "pw"),
   ("USERNAME_SELECTOR", "#user"),
   ("PASSWORD_SELECTOR", "#pw"),
   ("SUBMIT_SELECTOR", "#submit"),
   ("PUSHOVER_APP_TOKEN", "app-token"),
   ("PUSHOVER_USER_KEYS", "u1,u2,u3")]

/-- A transport where every POST succeeds. -/
def post0 : Payload → PostOutcome := fun _ => .response 200 "{}"

/-- A transport where recipient `u2` gets a 500 response and the others
succeed. -/
def postFail : Payload → PostOutcome := fun p =>
  if p.user = "u2" then .response 500 "server error" else .response 200 "{}"

/-- A store record as a previous successful run would have written it for
fetched text `"abc"`. -/
def r0abc : SnapshotRecord :=
  ⟨sha256 (normalize_text "abc"), normalize_text "abc", "2024-01-01_08-00-00"⟩

/-- A store record for monitored text `"Score: 3-2"` (already normalized). -/
def rScore : SnapshotRecord :=
  ⟨sha256 "Score: 3-2", "Score: 3-2", "2024-05-01_08-00-00"⟩

/-- An arbitrary prior record for the selector-miss run. -/
def rPrior : SnapshotRecord := ⟨"h0", "old text", "2024-05-01_08-00-00"⟩

/-- A 2000-character message, longer than any plausible length cap. -/
def longMessage : String := String.mk (List.replicate 2000 'a')

/-! ## Proof development

First the structural lemmas about the Normalizer, then the claim
theorems. -/

theorem collapse_mem : ∀ l : List Char,
    (∀ c ∈ collapseWs l, c = ' ' ∨ isPySpace c = false) ∧
    (∀ c ∈ collapseSkip l, c = ' ' ∨ isPySpace c = false)
  | [] => ⟨by simp [collapseWs], by simp [collapseSkip]⟩
  | x :: xs => by
    obtain ⟨ih1, ih2⟩ := collapse_mem xs
    by_cases hx : isPySpace x = true
    · constructor <;> intro c hc
      · simp only [collapseWs, if_pos hx] at hc
        rcases List.mem_cons.1 hc with h | h
        · exact Or.inl h
        · exact ih2 c h
      · simp only [collapseSkip, if_pos hx] at hc
        exact ih2 c hc
    · have hx' : isPySpace x = false := by simpa using hx
      constructor <;> intro c hc
      · simp only [collapseWs, if_neg hx] at hc
        rcases List.mem_cons.1 hc with h | h
        · subst h; exact Or.inr hx'
        · exact ih1 c h
      · simp only [collapseSkip, if_neg hx] at hc
        rcases List.mem_cons.1 hc with h | h
        · subst h; exact Or.inr hx'
        · exact ih1 c h

theorem collapse_chain : ∀ l : List Char,
    NoAdjWs (collapseWs l) ∧ NoAdjWs (collapseSkip l) ∧ HeadNotWs (collapseSkip l)
  | [] => ⟨List.chain'_nil, List.chain'_nil, trivial⟩
  | x :: xs => by
    obtain ⟨ih1, ih2, ih3⟩ := collapse_chain xs
    by_cases hx : isPySpace x = true
    · refine ⟨?_, ?_, ?_⟩
      · simp only [collapseWs, if_pos hx]
        rw [NoAdjWs, List.chain'_cons']
        refine ⟨?_, ih2⟩
        intro y hy
        cases hsk : collapseSkip xs with
        | nil => rw [hsk] at hy; cases hy
        | cons z zs =>
          rw [hsk] at hy
          simp only [List.head?_cons, Option.mem_some_iff] at hy
          subst hy
          rw [hsk] at ih3
          intro hpair
          rw [ih3] at hpair
          exact Bool.false_ne_true hpair.2
      · simp only [collapseSkip, if_pos hx]; exact ih2
      · simp only [collapseSkip, if_pos hx]; exact ih3
    · have hx' : isPySpace x = false := by simpa using hx
      refine ⟨?_, ?_, ?_⟩
      · simp only [collapseWs, if_neg hx]
        rw [NoAdjWs, List.chain'_cons']
        refine ⟨fun y _ hpair => ?_, ih1⟩
        rw [hx'] at hpair
        exact Bool.false_ne_true hpair.1
      · simp only [collapseSkip, if_neg hx]
        rw [NoAdjWs, List.chain'_cons']
        refine ⟨fun y _ hpair => ?_, ih1⟩
        rw [hx'] at hpair
        exact Bool.false_ne_true hpair.1
      · simp only [collapseSkip, if_neg hx]; exact hx'

theorem collapseWs_eq_self : ∀ l : List Char,
    (∀ c ∈ l, isPySpace c = true → c = ' ') → NoAdjWs l → collapseWs l = l
  | [] => fun _ _ => rfl
  | x :: xs => fun hmem hchain => by
    have hmemtail : ∀ c ∈ xs, isPySpace c = true → c = ' ' :=
      fun c hc => hmem c (List.mem_cons_of_mem _ hc)
    by_cases hx : isPySpace x = true
    · have hxsp : x = ' ' := hmem x (List.mem_cons_self x xs) hx
      simp only [collapseWs, if_pos hx]
      cases hxs : xs with
      | nil => rw [hxsp]; rfl
      | cons y ys =>
        rw [hxs] at hchain hmemtail
        have hsep : SepWs x y := (List.chain'_cons.1 hchain).1
        have hy : isPySpace y = false := by
          cases hyv : isPySpace y with
          | false => rfl
          | true => exact absurd ⟨hx, hyv⟩ hsep
        have ih := collapseWs_eq_self (y :: ys) hmemtail (List.chain'_cons.1 hchain).2
        simp only [collapseWs, if_neg (by simp [hy] : ¬(isPySpace y = true))] at ih
        have h2 : collapseWs ys = ys := by injection ih
        rw [collapseSkip, if_neg (by simp [hy] : ¬(isPySpace y = true)), h2, hxsp]
    · have ih := collapseWs_eq_self xs hmemtail hchain.tail
      simp only [collapseWs, if_neg hx, ih]

theorem dropWhile_headNotWs (l : List Char) : HeadNotWs (l.dropWhile isPySpace) := by
  have h := List.head?_dropWhile_not isPySpace l
  cases hd : l.dropWhile isPySpace with
  | nil => trivial
  | cons c cs =>
    rw [hd] at h
    simpa using h

theorem headNotWs_eq_dropWhile (l : List Char) (h : HeadNotWs l) :
    l.dropWhile isPySpace = l := by
  cases l with
  | nil => rfl
  | cons c cs =>
    have h' : isPySpace c = false := h
    simp [List.dropWhile_cons, h']

theorem headNotWs_of_append {m t : List Char} (hl : HeadNotWs (m ++ t)) :
    HeadNotWs m := by
  cases m with
  | nil => trivial
  | cons c cs => exact hl

theorem noAdjWs_reverse {l : List Char} (h : NoAdjWs l) : NoAdjWs l.reverse := by
  rw [NoAdjWs, List.chain'_reverse]
  exact h.imp (fun a b hab hp => hab ⟨hp.2, hp.1⟩)

theorem noAdjWs_dropWhile {l : List Char} (h : NoAdjWs l) :
    NoAdjWs (l.dropWhile isPySpace) :=
  h.suffix (List.dropWhile_suffix _)

theorem pyStripChars_headNotWs (l : List Char) : HeadNotWs (pyStripChars l) := by
  obtain ⟨t, ht⟩ :=
    List.dropWhile_suffix (l := (l.dropWhile isPySpace).reverse) isPySpace
  have hd : l.dropWhile isPySpace = pyStripChars l ++ t.reverse := by
    have := congrArg List.reverse ht
    rw [List.reverse_append, List.reverse_reverse] at this
    rw [pyStripChars]
    exact this.symm
  exact headNotWs_of_append (hd ▸ dropWhile_headNotWs l)

theorem pyStripChars_lastNotWs (l : List Char) :
    HeadNotWs (pyStripChars l).reverse := by
  rw [pyStripChars, List.reverse_reverse]
  exact dropWhile_headNotWs _

theorem pyStripChars_noAdj {l : List Char} (h : NoAdjWs l) :
    NoAdjWs (pyStripChars l) :=
  noAdjWs_reverse (noAdjWs_dropWhile (noAdjWs_reverse (noAdjWs_dropWhile h)))

theorem pyStripChars_subset {l : List Char} : ∀ c ∈ pyStripChars l, c ∈ l := by
  intro c hc
  rw [pyStripChars, List.mem_reverse] at hc
  have hc2 := (List.dropWhile_sublist _).subset hc
  rw [List.mem_reverse] at hc2
  exact (List.dropWhile_sublist _).subset hc2

theorem pyStripChars_eq_self {l : List Char} (h1 : HeadNotWs l)
    (h2 : HeadNotWs l.reverse) : pyStripChars l = l := by
  rw [pyStripChars, headNotWs_eq_dropWhile l h1, headNotWs_eq_dropWhile _ h2,
    List.reverse_reverse]

theorem replaceNbsp_eq_self : ∀ l : List Char,
    (∀ c ∈ l, c ≠ nbspChar) → replaceNbsp l = l
  | [] => fun _ => rfl
  | c :: cs => fun h => by
    have ih := replaceNbsp_eq_self cs (fun x hx => h x (List.mem_cons_of_mem _ hx))
    simp only [replaceNbsp, List.map_cons] at ih ⊢
    rw [ih, if_neg (h c (List.mem_cons_self c cs))]

/-- The three structural facts about the output of `normalize_text`. -/
theorem normalize_text_chars (s : String) :
    (∀ c ∈ (normalize_text s).data, c = ' ' ∨ isPySpace c = false) ∧
    NoAdjWs (normalize_text s).data ∧
    HeadNotWs (normalize_text s).data ∧ HeadNotWs (normalize_text s).data.reverse := by
  refine ⟨?_, ?_, ?_, ?_⟩
  · intro c hc
    exact (collapse_mem (replaceNbsp s.data)).1 c (pyStripChars_subset c hc)
  · exact pyStripChars_noAdj (collapse_chain (replaceNbsp s.data)).1
  · exact pyStripChars_headNotWs _
  · exact pyStripChars_lastNotWs _

/-- Line 43's name lookup fails: `PUSHOVER_MAX_CHARS` is not a module-level
binding. -/
theorem pushover_max_chars_undefined : nameDefined "PUSHOVER_MAX_CHARS" = false := by
  decide

/-- Line 152's name lookup fails: `TZ` is not a module-level binding. -/
theorem tz_undefined : nameDefined "TZ" = false := by decide

/-- Case analysis on the `save_state` calls a run performs: either none, or
exactly one, with the new record built from the fetched text. -/
theorem runMain_savedRecords_cases (env : Env) (post : Payload → PostOutcome)
    (t : Nat) (prior : Option SnapshotRecord) (fetch : FetchResult)
    (stamp : String) :
    (runMain env post t prior fetch stamp).savedRecords = [] ∨
    ∃ raw, fetch = FetchResult.found raw ∧
      (runMain env post t prior fetch stamp).savedRecords =
        [⟨sha256 (normalize_text raw), normalize_text raw, stamp⟩] := by
  by_cases hq : t < 25200
  · left; simp only [runMain, if_pos hq]
  · cases hm : missingEnvKey env with
    | some k => left; simp only [runMain, if_neg hq, hm]
    | none =>
      cases fetch with
      | missingSelector => left; simp only [runMain, if_neg hq, hm]
      | found raw =>
        cases prior with
        | none =>
          right
          exact ⟨raw, rfl, by simp only [runMain, if_neg hq, hm]⟩
        | some lastRec =>
          by_cases hbeq : (sha256 (normalize_text raw) == lastRec.hash) = true
          · left; simp [runMain, if_neg hq, hm, hbeq]
          · right
            have hbeq' : (sha256 (normalize_text raw) == lastRec.hash) = false :=
              by simpa using hbeq
            exact ⟨raw, rfl, by simp [runMain, if_neg hq, hm, hbeq']⟩

/-- C1: for every run where a prior record exists and the newly fetched text
normalizes to a string whose sha256 hash equals the stored hash, the
pipeline leaves the Fingerprint Store unchanged in content (no `save_state`
call happens and the final store content is the prior record) and writes no
archive file at all — in particular no diff file. -/
theorem claim_C1_no_change_frame (env : Env) (post : Payload → PostOutcome)
    (t : Nat) (stamp : String) (r : SnapshotRecord) (raw : String)
    (hq : ¬ t < 25200) (henv : missingEnvKey env = none)
    (hh : sha256 (normalize_text raw) = r.hash) :
    (runMain env post t (some r) (.found raw) stamp).finalStore = some r ∧
    (runMain env post t (some r) (.found raw) stamp).savedRecords = [] ∧
    (runMain env post t (some r) (.found raw) stamp).archiveWrites = [] := by
  have hbeq : (sha256 (normalize_text raw) == r.hash) = true := beq_iff_eq.mpr hh
  simp [runMain, if_neg hq, henv, hbeq]

theorem claim_C1_witness :
    missingEnvKey env0 = none ∧
    sha256 (normalize_text "abc") = r0abc.hash ∧
    (runMain env0 post0 28800 (some r0abc) (.found "abc")
      "2024-01-02_08-00-00").finalStore = some r0abc ∧
    (runMain env0 post0 28800 (some r0abc) (.found "abc")
      "2024-01-02_08-00-00").savedRecords = [] ∧
    (runMain env0 post0 28800 (some r0abc) (.found "abc")
      "2024-01-02_08-00-00").archiveWrites = [] := by
  have h := claim_C1_no_change_frame env0 post0 28800 "2024-01-02_08-00-00"
    r0abc "abc" (by decide) (by decide) rfl
  exact ⟨by decide, rfl, h.1, h.2.1, h.2.2⟩

/-- C2 as stated is false on the code: on a no-change run (here the prior
record holds text `"abc"` with its hash, and the fetch returns `"abc"`
again) `save_state` is never called and the store keeps the old record with
the old timestamp, not a new record for the just-fetched text stamped with
this run's timestamp. -/
theorem claim_C2_counterexample :
    (runMain env0 post0 28800 (some r0abc) (.found "abc")
      "2024-01-02_09-00-00").savedRecords = [] ∧
    (runMain env0 post0 28800 (some r0abc) (.found "abc")
      "2024-01-02_09-00-00").finalStore ≠
      some ⟨sha256 (normalize_text "abc"), normalize_text "abc",
        "2024-01-02_09-00-00"⟩ := by decide

/-- C2 (amended): on every subsequent run the snapshot record is replaced
with a new record for the just-fetched normalized text exactly when the new
hash differs from the stored hash; on a hash-match run the store is left
unchanged. -/
theorem claim_C2_store_update (env : Env) (post : Payload → PostOutcome)
    (t : Nat) (stamp : String) (r : SnapshotRecord) (raw : String)
    (hq : ¬ t < 25200) (henv : missingEnvKey env = none) :
    (sha256 (normalize_text raw) ≠ r.hash →
      (runMain env post t (some r) (.found raw) stamp).finalStore =
        some ⟨sha256 (normalize_text raw), normalize_text raw, stamp⟩ ∧
      (runMain env post t (some r) (.found raw) stamp).savedRecords =
        [⟨sha256 (normalize_text raw), normalize_text raw, stamp⟩]) ∧
    (sha256 (normalize_text raw) = r.hash →
      (runMain env post t (some r) (.found raw) stamp).finalStore = some r ∧
      (runMain env post t (some r) (.found raw) stamp).savedRecords = []) := by
  constructor
  · intro hne
    have hbeq : (sha256 (normalize_text raw) == r.hash) = false :=
      beq_eq_false_iff_ne.mpr hne
    simp [runMain, if_neg hq, henv, hbeq]
  · intro heq
    have hbeq : (sha256 (normalize_text raw) == r.hash) = true := beq_iff_eq.mpr heq
    simp [runMain, if_neg hq, henv, hbeq]

theorem claim_C2_witness :
    sha256 (normalize_text "xyz") ≠ r0abc.hash ∧
    (runMain env0 post0 28800 (some r0abc) (.found "xyz")
      "2024-01-02_09-00-00").finalStore =
      some ⟨sha256 (normalize_text "xyz"), normalize_text "xyz",
        "2024-01-02_09-00-00"⟩ ∧
    (runMain env0 post0 28800 (some r0abc) (.found "xyz")
      "2024-01-02_09-00-00").savedRecords =
      [⟨sha256 (normalize_text "xyz"), normalize_text "xyz",
        "2024-01-02_09-00-00"⟩] := by
  have hne : sha256 (normalize_text "xyz") ≠ r0abc.hash := by decide
  have h := (claim_C2_store_update env0 post0 28800 "2024-01-02_09-00-00"
    r0abc "xyz" (by decide) (by decide)).1 hne
  exact ⟨hne, h.1, h.2⟩

/-- C3: whenever the pipeline writes a snapshot record to the Fingerprint
Store, the record's hash field equals `sha256` of its text field, and the
text field is the normalized form of the fetched content; consequently hash
equality between two records satisfying the invariant implies text equality
up to a sha256 collision (differing texts with equal stored hashes are a
collision of `sha256` itself). -/
theorem claim_C3_store_invariant (env : Env) (post : Payload → PostOutcome)
    (t : Nat) (prior : Option SnapshotRecord) (fetch : FetchResult)
    (stamp : String) :
    (∀ rec ∈ (runMain env post t prior fetch stamp).savedRecords,
        rec.hash = sha256 rec.text ∧
        ∃ raw, fetch = FetchResult.found raw ∧ rec.text = normalize_text raw) ∧
    (∀ r1 r2 : SnapshotRecord, r1.hash = sha256 r1.text →
        r2.hash = sha256 r2.text → r1.hash = r2.hash →
        r1.text ≠ r2.text → sha256 r1.text = sha256 r2.text) := by
  constructor
  · intro rec hrec
    rcases runMain_savedRecords_cases env post t prior fetch stamp with
      h | ⟨raw, hf, h⟩
    · rw [h] at hrec
      exact absurd hrec (List.not_mem_nil rec)
    · rw [h] at hrec
      obtain rfl := List.mem_singleton.1 hrec
      exact ⟨rfl, raw, hf, rfl⟩
  · intro r1 r2 h1 h2 hh _
    rw [← h1, ← h2]
    exact hh

theorem claim_C3_witness :
    (⟨sha256 (normalize_text "Hi  there"), normalize_text "Hi  there",
        "2024-01-01_08-00-00"⟩ : SnapshotRecord) ∈
      (runMain env0 post0 28800 none (.found "Hi  there")
        "2024-01-01_08-00-00").savedRecords ∧
    (⟨sha256 (normalize_text "Hi  there"), normalize_text "Hi  there",
        "2024-01-01_08-00-00"⟩ : SnapshotRecord).hash =
      sha256 (⟨sha256 (normalize_text "Hi  there"), normalize_text "Hi  there",
        "2024-01-01_08-00-00"⟩ : SnapshotRecord).text ∧
    ∃ raw, FetchResult.found "Hi  there" = FetchResult.found raw ∧
      (⟨sha256 (normalize_text "Hi  there"), normalize_text "Hi  there",
        "2024-01-01_08-00-00"⟩ : SnapshotRecord).text = normalize_text raw := by
  have hmem : (⟨sha256 (normalize_text "Hi  there"), normalize_text "Hi  there",
      "2024-01-01_08-00-00"⟩ : SnapshotRecord) ∈
      (runMain env0 post0 28800 none (.found "Hi  there")
        "2024-01-01_08-00-00").savedRecords := by decide
  have h := (claim_C3_store_invariant env0 post0 28800 none
    (.found "Hi  there") "2024-01-01_08-00-00").1 _ hmem
  exact ⟨hmem, h.1, h.2⟩

/-- C4: on every run with no prior state file and a successful fetch, the
pipeline persists a record whose text is the normalized fetched text, writes
exactly one archive file (the snapshot text, no diff), attempts no
notification, and exits without error. -/
theorem claim_C4_first_run (env : Env) (post : Payload → PostOutcome)
    (t : Nat) (raw stamp : String)
    (hq : ¬ t < 25200) (henv : missingEnvKey env = none) :
    (runMain env post t none (.found raw) stamp).finalStore =
      some ⟨sha256 (normalize_text raw), normalize_text raw, stamp⟩ ∧
    (runMain env post t none (.found raw) stamp).savedRecords =
      [⟨sha256 (normalize_text raw), normalize_text raw, stamp⟩] ∧
    (runMain env post t none (.found raw) stamp).archiveWrites =
      [⟨snapshotTxtPath stamp, normalize_text raw⟩] ∧
    (runMain env post t none (.found raw) stamp).pushAttempts = [] ∧
    (runMain env post t none (.found raw) stamp).error = none := by
  simp [runMain, if_neg hq, henv]

theorem claim_C4_witness :
    normalize_text "Hello   world" = "Hello world" ∧
    (runMain env0 post0 28800 none (.found "Hello   world")
      "2024-01-01_08-00-00").finalStore =
      some ⟨sha256 "Hello world", "Hello world", "2024-01-01_08-00-00"⟩ ∧
    (runMain env0 post0 28800 none (.found "Hello   world")
      "2024-01-01_08-00-00").archiveWrites =
      [⟨"state/snapshots/2024-01-01_08-00-00.txt", "Hello world"⟩] ∧
    (runMain env0 post0 28800 none (.found "Hello   world")
      "2024-01-01_08-00-00").pushAttempts = [] ∧
    (runMain env0 post0 28800 none (.found "Hello   world")
      "2024-01-01_08-00-00").error = none := by
  have h := claim_C4_first_run env0 post0 28800 "Hello   world"
    "2024-01-01_08-00-00" (by decide) (by decide)
  have hn : normalize_text "Hello   world" = "Hello world" := by decide
  refine ⟨hn, ?_, ?_, h.2.2.2.1, h.2.2.2.2⟩
  · rw [h.1, hn]
  · rw [h.2.2.1, hn]
    decide

/-- C5 (code bug): a change run with prior text `"Score: 3-2"` and fetch
`"Score: 4-2"` computes the unified diff with the removed and added lines,
writes the snapshot and diff files and overwrites the store — but the final
notification step dies with `NameError` on the unbound `PUSHOVER_MAX_CHARS`
inside `send_pushover` before any HTTP request, so no notification carrying
the new content is ever sent. -/
theorem claim_C5_change_run_eval :
    runMain env0 post0 28800 (some rScore) (FetchResult.found "Score: 4-2")
      "2024-05-02_09-00-00" =
    { finalStore :=
        some ⟨sha256 "Score: 4-2", "Score: 4-2", "2024-05-02_09-00-00"⟩,
      savedRecords :=
        [⟨sha256 "Score: 4-2", "Score: 4-2", "2024-05-02_09-00-00"⟩],
      archiveWrites :=
        [⟨"state/snapshots/2024-05-02_09-00-00.txt", "Score: 4-2"⟩,
         ⟨"state/snapshots/2024-05-02_09-00-00.diff.txt",
          "--- before\n+++ after\n@@ -1 +1 @@\n-Score: 3-2\n+Score: 4-2"⟩],
      pushAttempts := [],
      printed :=
        ["CHANGE DETECTED ✅",
         "Saved snapshot: state/snapshots/2024-05-02_09-00-00.txt",
         "Saved diff:     state/snapshots/2024-05-02_09-00-00.diff.txt"],
      error := some (PyErr.nameError "PUSHOVER_MAX_CHARS") } := by decide

/-- C6 (code bug): when the content selector cannot be located, line 152
(`stamp = datetime.now(TZ)...`) evaluates the unbound name `TZ`; the
`NameError` escapes the `except PWTimeoutError` handler, so the run crashes
before the debug screenshot and raw-markup files are written and before any
sentinel text is produced: nothing is written at all, contradicting the
claimed silent degradation. -/
theorem claim_C6_selector_miss_eval :
    runMain env0 post0 28800 (some rPrior) FetchResult.missingSelector
      "2024-05-02_08-00-00" =
    { finalStore := some rPrior, savedRecords := [], archiveWrites := [],
      pushAttempts := [], printed := [],
      error := some (PyErr.nameError "TZ") } := by decide

/-- C7 (code bug): a 2000-character message is never truncated to any cap —
`send_pushover` dies with `NameError` at the length comparison because
`PUSHOVER_MAX_CHARS` is unbound, attempting no HTTP request. -/
theorem claim_C7_no_truncation_eval :
    longMessage.length = 2000 ∧
    send_pushover env0 post0 longMessage "Watcher" =
      ⟨[], Except.error (PyErr.nameError "PUSHOVER_MAX_CHARS")⟩ := by
  constructor
  · show (String.mk (List.replicate 2000 'a')).length = 2000
    simp only [String.length, List.length_replicate]
  · decide

/-- C8 (code bug): with three configured recipients and a transport that
would fail for the second one, `send_pushover` attempts no delivery at all:
the `NameError` on `PUSHOVER_MAX_CHARS` precedes the recipient loop, so
neither per-recipient delivery nor failure aggregation ever runs. -/
theorem claim_C8_no_delivery_eval :
    get_pushover_users env0 = ["u1", "u2", "u3"] ∧
    send_pushover env0 postFail "update" "Watcher" =
      ⟨[], Except.error (PyErr.nameError "PUSHOVER_MAX_CHARS")⟩ := by decide

/-- C10: every call of `send_pushover` with a non-empty (stripped) token and
a non-empty recipient list raises `NameError` for `PUSHOVER_MAX_CHARS`
before performing any truncation or network request; hence no notification
can ever be delivered. -/
theorem claim_C10_pushover_name_error (env : Env) (post : Payload → PostOutcome)
    (message title : String)
    (htok : pyStrip ((getenv env "PUSHOVER_APP_TOKEN").getD "") ≠ "")
    (husers : get_pushover_users env ≠ []) :
    send_pushover env post message title =
      ⟨[], Except.error (PyErr.nameError "PUSHOVER_MAX_CHARS")⟩ := by
  simp only [send_pushover, if_neg htok, if_neg husers]

theorem claim_C10_witness :
    pyStrip ((getenv env0 "PUSHOVER_APP_TOKEN").getD "") ≠ "" ∧
    get_pushover_users env0 ≠ [] ∧
    send_pushover env0 post0 "anything" "Watcher" =
      ⟨[], Except.error (PyErr.nameError "PUSHOVER_MAX_CHARS")⟩ :=
  ⟨by decide, by decide,
    claim_C10_pushover_name_error env0 post0 "anything" "Watcher"
      (by decide) (by decide)⟩

/-- C9: Normalization is idempotent: for every string `s`,
`normalize_text (normalize_text s) = normalize_text s`. -/
theorem claim_C9_normalize_idempotent (s : String) :
    normalize_text (normalize_text s) = normalize_text s := by
  obtain ⟨hmem, hchain, hhead, hlast⟩ := normalize_text_chars s
  have h1 : replaceNbsp (normalize_text s).data = (normalize_text s).data := by
    refine replaceNbsp_eq_self _ (fun c hc he => ?_)
    rcases hmem c hc with h | h
    · rw [he] at h; exact absurd h (by decide)
    · rw [he] at h
      exact absurd h (by decide)
  have h2 : collapseWs (normalize_text s).data = (normalize_text s).data := by
    refine collapseWs_eq_self _ (fun c hc hws => ?_) hchain
    exact (hmem c hc).resolve_right (by simp [hws])
  have h3 : pyStripChars (normalize_text s).data = (normalize_text s).data :=
    pyStripChars_eq_self hhead hlast
  show String.mk (pyStripChars (collapseWs (replaceNbsp (normalize_text s).data))) =
    normalize_text s
  rw [h1, h2, h3]

end Watcher
